import Mathlib

/-!
Verification development for the pipeline-to-task compiler in
`pkg/jx/cmd/step_create_task.go`.

The functions `generateTask`, `generatePipeline`, `createSteps`,
`removeUnnecessaryVolumes` and `removeUnnecessaryEnvVars` are embedded
one-to-one from the Go source.  Go strings are modelled as Lean `String`;
the Go standard-library helpers they call (`strings.HasPrefix`,
`strings.TrimPrefix`, `filepath.IsAbs`, `filepath.Join` with its internal
`Clean`) are modelled over `String.data` character lists with the
documented Go semantics.  The `jenkinsfile` and `kube` packages are not
part of the analyzed source; the few items taken from them are modelled
from the spec and marked as such.
-/

namespace JxStepCreateTask

/-- Go `strings.HasPrefix` on character lists: `listHasPrefix pre s`
is true when `pre` is a prefix of `s`. -/
def listHasPrefix : List Char → List Char → Bool
  | [], _ => true
  | _ :: _, [] => false
  | p :: ps, c :: cs => p = c && listHasPrefix ps cs

/-- Go `strings.HasPrefix s pre`. -/
def goHasPrefix (s pre : String) : Bool :=
  listHasPrefix pre.data s.data

/-- Go `strings.TrimPrefix s pre`: removes `pre` from the front of `s`
when present, otherwise returns `s` unchanged. -/
def goTrimPrefix (s pre : String) : String :=
  if goHasPrefix s pre then ⟨s.data.drop pre.data.length⟩ else s

/-- Go `filepath.IsAbs` on unix: the path starts with a slash. -/
def goIsAbs (p : String) : Bool :=
  goHasPrefix p "/"

/-- Splits a character list on the slash separator, as Go `path.Clean`
conceptually processes the slash-separated elements of a path. -/
def splitSlashAux : List Char → List Char → List (List Char)
  | [], cur => [cur.reverse]
  | c :: cs, cur =>
    if c = '/' then cur.reverse :: splitSlashAux cs []
    else splitSlashAux cs (c :: cur)

/-- Splits a character list on slashes. -/
def splitSlash (l : List Char) : List (List Char) :=
  splitSlashAux l []

/-- Core of Go `path.Clean`: processes path elements left to right,
dropping empty and dot elements, resolving dot-dot against the output
so far (at the root a leading dot-dot is dropped; in a relative path it
is kept).  The accumulator holds the processed elements reversed. -/
def cleanComps (rooted : Bool) : List (List Char) → List (List Char) → List (List Char)
  | out, [] => out.reverse
  | out, c :: cs =>
    if c = [] ∨ c = ['.'] then cleanComps rooted out cs
    else if c = ['.', '.'] then
      match out with
      | [] => if rooted then cleanComps rooted [] cs else cleanComps rooted [['.', '.']] cs
      | o :: rest =>
        if o = ['.', '.'] then cleanComps rooted (['.', '.'] :: o :: rest) cs
        else cleanComps rooted rest cs
    else cleanComps rooted (c :: out) cs

/-- Joins path elements with slashes. -/
def joinSlash : List (List Char) → List Char
  | [] => []
  | [c] => c
  | c :: rest => c ++ '/' :: joinSlash rest

/-- Go `path.Clean` (equivalently unix `filepath.Clean`): returns the
shortest path equivalent to the input by dropping empty and dot
elements and resolving dot-dot elements; the empty path cleans to a
dot, and a rooted path stays rooted. -/
def goClean (path : String) : String :=
  if path.data = [] then "."
  else
    let rooted := goIsAbs path
    let comps := cleanComps rooted [] (splitSlash path.data)
    if comps = [] then (if rooted then "/" else ".")
    else ⟨(if rooted then ['/'] else []) ++ joinSlash comps⟩

/-- Go `filepath.Join` restricted to two elements, as used by the
source: non-empty elements are joined with a slash and the result is
cleaned; if every element is empty the result is empty. -/
def goJoin (a b : String) : String :=
  if a.data = [] ∧ b.data = [] then ""
  else if a.data = [] then goClean b
  else if b.data = [] then goClean a
  else goClean ⟨a.data ++ '/' :: b.data⟩

/-- `corev1.EnvVar`: the fields consumed by the source. -/
structure EnvVar where
  name : String
  value : String
deriving DecidableEq

/-- `corev1.VolumeMount`: the fields consumed by the source. -/
structure VolumeMount where
  name : String
  mountPath : String
deriving DecidableEq

/-- `corev1.Container`: the fields the source reads or writes. -/
structure Container where
  name : String
  image : String
  command : List String
  args : List String
  workingDir : String
  env : List EnvVar
  volumeMounts : List VolumeMount
deriving DecidableEq

/-- `corev1.Pod` restricted to what the source reads:
`pod.Spec.Containers`. -/
structure Pod where
  containers : List Container
deriving DecidableEq

/-- `jenkinsfile.PipelineStep` restricted to the fields the source
reads: `Command`, `Container`, `Dir` and the nested child `Steps`. -/
inductive PipelineStep where
  | mk (command : String) (container : String) (dir : String) (steps : List PipelineStep)

/-- The `Command` field of a step. -/
def PipelineStep.command : PipelineStep → String
  | .mk c _ _ _ => c

/-- The `Container` field of a step. -/
def PipelineStep.container : PipelineStep → String
  | .mk _ c _ _ => c

/-- The `Dir` field of a step. -/
def PipelineStep.dir : PipelineStep → String
  | .mk _ _ d _ => d

/-- The child `Steps` of a step. -/
def PipelineStep.steps : PipelineStep → List PipelineStep
  | .mk _ _ _ s => s

/-- `jenkinsfile.PipelineLifecycle`: an ordered list of steps. -/
structure Lifecycle where
  steps : List PipelineStep

/-- Modelled from the spec: `jenkinsfile.PipelineLifecycles` holds the
ordered lifecycle stages of one pipeline kind; the compiler only needs
the ordered list of stages, where a stage may be nil (absent). -/
structure PipelineLifecycles where
  stages : List (Option Lifecycle)

/-- Modelled from the spec: `All()` returns the stages in their fixed
declared order. -/
def PipelineLifecycles.All (l : PipelineLifecycles) : List (Option Lifecycle) :=
  l.stages

/-- `jenkinsfile.PipelineAgent` restricted to the field the source
reads: the default container name. -/
structure PipelineAgent where
  container : String

/-- `jenkinsfile.Pipelines`: one optional lifecycle set per kind. -/
structure Pipelines where
  pullRequest : Option PipelineLifecycles
  release : Option PipelineLifecycles
  feature : Option PipelineLifecycles

/-- `jenkinsfile.PipelineConfig` restricted to what the source reads. -/
structure PipelineConfig where
  agent : PipelineAgent
  pipelines : Pipelines

/-- The outcomes on the error path of the compiler.  `noContainers`
models the `fmt.Errorf("No Containers for pod template %s", ...)`
return; `nilPodTemplate` models the Go nil-pointer dereference panic
that occurs when both the effective and the default pod template are
absent from the mapping; `unknownKind` models the
`fmt.Errorf("Unknown pipeline kind %s. ...")` return. -/
inductive JxError where
  | noContainers (containerName : String)
  | nilPodTemplate (containerName : String)
  | unknownKind (kind : String)
deriving DecidableEq

/-- Modelled from the spec: recognized pipeline kind literal
`release` (`jenkinsfile.PipelineKindRelease`). -/
def PipelineKindRelease : String := "release"

/-- Modelled from the spec: recognized pipeline kind literal
`pull-request` (`jenkinsfile.PipelineKindPullRequest`). -/
def PipelineKindPullRequest : String := "pull-request"

/-- Modelled from the spec: recognized pipeline kind literal
`feature` (`jenkinsfile.PipelineKindFeature`). -/
def PipelineKindFeature : String := "feature"

/-- Modelled from the spec: `jenkinsfile.PipelineKinds`, the list of
valid kind names used in error messages. -/
def PipelineKinds : List String :=
  [PipelineKindRelease, PipelineKindPullRequest, PipelineKindFeature]

/-- The message a `JxError` renders to, following the `fmt.Errorf`
format strings of the source (the nil dereference is a runtime panic
and has no source-defined message). -/
def JxError.message : JxError → String
  | .noContainers n => "No Containers for pod template " ++ n
  | .nilPodTemplate n => "runtime error: invalid memory address or nil pointer dereference resolving pod template " ++ n
  | .unknownKind kind =>
    "Unknown pipeline kind " ++ kind ++ ". Supported values are " ++ String.intercalate ", " PipelineKinds

/-- The compiled task: a name plus the ordered container steps
(`pipelineapi.Task` restricted to the fields the source sets). -/
structure Task where
  name : String
  steps : List Container
deriving DecidableEq

/-- Modelled from the spec: `kube.ToValidName` sanitizes a name into a
valid lowercase identifier; the exact restricted character set is an
external-collaborator concern, so only the lowercasing is modelled. -/
def ToValidName (s : String) : String :=
  ⟨s.data.map Char.toLower⟩

deriving instance DecidableEq for Except

/-- Lookup in the `PodTemplates` map, `o.PodTemplates[name]`; a Go map
access yields the nil pointer for an absent key, modelled as `none`. -/
def lookupPod (templates : List (String × Pod)) (name : String) : Option Pod :=
  (templates.find? (fun p => p.1 = name)).map Prod.snd

/-- `o.MissingPodTemplates[name] = true`: inserting a key into the
missing-templates set; modelled as an insertion-ordered list without
duplicates, matching the at-most-once key semantics of a Go map. -/
def insertMissing (missing : List String) (name : String) : List String :=
  if name ∈ missing then missing else missing ++ [name]

/-- `removeUnnecessaryVolumes` from the source: drops every volume
mount. -/
def removeUnnecessaryVolumes (c : Container) : Container :=
  { c with volumeMounts := [] }

/-- `removeUnnecessaryEnvVars` from the source: keeps exactly the
environment entries whose name starts with none of the prefixes
`GIT_`, `DOCKER_`, `XDG_`. -/
def removeUnnecessaryEnvVars (c : Container) : Container :=
  { c with env := c.env.filter (fun e =>
      ¬(goHasPrefix e.name "GIT_" ∨ goHasPrefix e.name "DOCKER_" ∨ goHasPrefix e.name "XDG_")) }

/-- The inline working-directory normalization of `createSteps`
(lines 307 to 313 of the source): a leading dot-slash is replaced by
the root working path, then a non-absolute path is joined under the
root working path. -/
def normalizeDir (dir : String) : String :=
  let dir := if goHasPrefix dir "./" then "/workspace" ++ goTrimPrefix dir "." else dir
  if ¬goIsAbs dir then goJoin "/workspace" dir else dir

mutual

/-- `createSteps` from the source.  The `templates` and `dft`
parameters stand for `o.PodTemplates` and the package constant
`defaultContainerName` (the spec directs modelling such constants as
passed-in configuration); `missing` threads `o.MissingPodTemplates`.
The returned `Except` carries either the flattened container steps or
the first error, paired with the updated missing set.  The branch
returning `nilPodTemplate` models the nil-pointer dereference of
`podTemplate.Spec.Containers` when both map lookups miss. -/
def createSteps (templates : List (String × Pod)) (dft : String) :
    PipelineStep → String → String → List String →
    Except JxError (List Container) × List String
  | .mk command container stepDir children, containerName0, dir0, missing0 =>
    let containerName := if container ≠ "" then container else containerName0
    let dir := if container ≠ "" then dir0
      else if stepDir ≠ "" then stepDir else dir0
    if command ≠ "" then
      let containerName := if containerName = "" then dft else containerName
      let probe := lookupPod templates containerName
      let missing := if probe.isNone then insertMissing missing0 containerName else missing0
      match (if probe.isNone then lookupPod templates dft else probe) with
      | none => (.error (.nilPodTemplate containerName), missing)
      | some podTemplate =>
        match podTemplate.containers with
        | [] => (.error (.noContainers containerName), missing)
        | c :: _ =>
          let c := removeUnnecessaryVolumes c
          let c := removeUnnecessaryEnvVars c
          let c := { c with command := ["/bin/sh"], args := ["-c", command] }
          let dir := normalizeDir dir
          let c := { c with workingDir := dir, image := "jenkinsxio/jx:latest" }
          createStepsList templates dft children containerName dir missing [c]
    else
      createStepsList templates dft children containerName dir missing0 []

/-- The child-step loop of `createSteps`: flattens each child with the
inherited context, appending the results in order and stopping at the
first error. -/
def createStepsList (templates : List (String × Pod)) (dft : String) :
    List PipelineStep → String → String → List String → List Container →
    Except JxError (List Container) × List String
  | [], _, _, missing, acc => (.ok acc, missing)
  | s :: rest, containerName, dir, missing, acc =>
    match createSteps templates dft s containerName dir missing with
    | (.error e, missing1) => (.error e, missing1)
    | (.ok cs, missing1) => createStepsList templates dft rest containerName dir missing1 (acc ++ cs)

end

/-- The stage loop of `generatePipeline`: skips nil lifecycles and
flattens every root step of each non-nil lifecycle in order,
concatenating the results and stopping at the first error. -/
def stagesLoop (templates : List (String × Pod)) (dft : String) :
    List (Option Lifecycle) → String → String → List String → List Container →
    Except JxError (List Container) × List String
  | [], _, _, missing, acc => (.ok acc, missing)
  | none :: rest, containerName, dir, missing, acc =>
    stagesLoop templates dft rest containerName dir missing acc
  | some l :: rest, containerName, dir, missing, acc =>
    match createStepsList templates dft l.steps containerName dir missing acc with
    | (.error e, missing1) => (.error e, missing1)
    | (.ok steps, missing1) => stagesLoop templates dft rest containerName dir missing1 steps

/-- `generatePipeline` from the source.  A nil lifecycle set returns
immediately with no error and no task.  Otherwise the stages are
flattened starting from the agent default container and the root
working path, and the task is assembled with the generated name.  The
yaml marshalling and output writing of the source are excluded I/O;
the task value the source would marshal is returned instead.  The
missing set starts empty, as `Run` initializes it fresh before
compiling. -/
def generatePipeline (templates : List (String × Pod)) (dft : String)
    (languageName : String) (pipelineConfig : PipelineConfig)
    (lifecycles : Option PipelineLifecycles) (templateKind : String) :
    Except JxError (Option Task) × List String :=
  match lifecycles with
  | none => (.ok none, [])
  | some ls =>
    let container := pipelineConfig.agent.container
    let dir := "/workspace"
    match stagesLoop templates dft ls.All container dir [] [] with
    | (.error e, missing) => (.error e, missing)
    | (.ok steps, missing) =>
      let name := "jx-task-" ++ languageName ++ "-" ++ templateKind
      (.ok (some { name := ToValidName name, steps := steps }), missing)

/-- `generateTask` from the source: selects the lifecycle set matching
the requested kind and hands it to `generatePipeline`; an unrecognized
kind is an error naming the supported kinds. -/
def generateTask (templates : List (String × Pod)) (dft : String)
    (name : String) (pipelineConfig : PipelineConfig) (kind : String) :
    Except JxError (Option Task) × List String :=
  let pipelines := pipelineConfig.pipelines
  if kind = PipelineKindRelease then
    generatePipeline templates dft name pipelineConfig pipelines.release kind
  else if kind = PipelineKindPullRequest then
    generatePipeline templates dft name pipelineConfig pipelines.pullRequest kind
  else if kind = PipelineKindFeature then
    generatePipeline templates dft name pipelineConfig pipelines.feature kind
  else
    (.error (.unknownKind kind), [])

mutual

/-- Spec-side definition, following the spec wording for claim C5:
the pre-order, parent-before-children, left-to-right list of the
commands of the executable steps of one step tree. -/
def preorderCommands : PipelineStep → List String
  | .mk command _ _ children => (if command ≠ "" then [command] else []) ++ preorderCommandsList children

/-- Spec-side companion of `preorderCommands` for a forest, keeping the
left-to-right order. -/
def preorderCommandsList : List PipelineStep → List String
  | [] => []
  | s :: rest => preorderCommands s ++ preorderCommandsList rest

end

/-- Spec-side definition for claim C5: the executable-step commands of
the non-nil stages, concatenated in stage order. -/
def stagesCommands : List (Option Lifecycle) → List String
  | [] => []
  | none :: rest => stagesCommands rest
  | some l :: rest => preorderCommandsList l.steps ++ stagesCommands rest

theorem listHasPrefix_nil (l : List Char) : listHasPrefix [] l = true := by
  cases l <;> rfl

theorem hasPrefix_dot_of_dotSlash (x : String) (h : goHasPrefix x "./" = true) :
    goHasPrefix x "." = true := by
  unfold goHasPrefix at h ⊢
  cases hd : x.data with
  | nil => rw [hd] at h; exact absurd h (by decide)
  | cons c cs =>
    rw [hd] at h
    have hpre : ("./" : String).data = ['.', '/'] := rfl
    have hdot : ("." : String).data = ['.'] := rfl
    rw [hpre] at h
    rw [hdot]
    simp [listHasPrefix] at h ⊢
    exact h.1

theorem not_dotSlash_of_isAbs (x : String) (h : goIsAbs x = true) :
    goHasPrefix x "./" = false := by
  unfold goIsAbs at h
  unfold goHasPrefix at h ⊢
  cases hd : x.data with
  | nil => rw [hd] at h; exact absurd h (by decide)
  | cons c cs =>
    rw [hd] at h
    have hslash : ("/" : String).data = ['/'] := rfl
    have hpre : ("./" : String).data = ['.', '/'] := rfl
    rw [hslash] at h
    rw [hpre]
    simp [listHasPrefix] at h ⊢
    intro hdot
    rw [← hdot] at h
    exact absurd h (by decide)

theorem isAbs_workspace_append (y : String) : goIsAbs ("/workspace" ++ y) = true := by
  unfold goIsAbs goHasPrefix
  have h1 : ("/workspace" ++ y).data = '/' :: ("workspace".data ++ y.data) := by
    rw [String.data_append]; rfl
  have h2 : ("/" : String).data = ['/'] := rfl
  rw [h1, h2]
  simp [listHasPrefix]

theorem normalizeDir_dotSlash (x : String) (h : goHasPrefix x "./" = true) :
    normalizeDir x = "/workspace" ++ ⟨x.data.drop 1⟩ := by
  have hdot := hasPrefix_dot_of_dotSlash x h
  have hlen : (("." : String).data.length) = 1 := rfl
  simp [normalizeDir, goTrimPrefix, h, hdot, hlen, isAbs_workspace_append]

theorem normalizeDir_rel (x : String) (h1 : goHasPrefix x "./" = false)
    (h2 : goIsAbs x = false) : normalizeDir x = goJoin "/workspace" x := by
  unfold normalizeDir
  rw [h1]
  simp [h2]

theorem normalizeDir_abs (x : String) (h : goIsAbs x = true) : normalizeDir x = x := by
  unfold normalizeDir
  rw [not_dotSlash_of_isAbs x h]
  simp [h]

/-- Claim C1: in `createSteps` a set `step.Container` suppresses the
dir override of the same node: the subtree keeps the inherited dir
even when `step.Dir` is also set, and the effective container becomes
`step.Container`; only when `step.Container` is empty and `step.Dir`
is set does the effective dir change to `step.Dir`; with neither set
both values stay as inherited.  Stated as: flattening a step equals
flattening the same step with cleared override fields under the
effective inherited values. -/
theorem c1_container_override_suppresses_dir (templates : List (String × Pod))
    (dft command container stepDir : String) (children : List PipelineStep)
    (containerName dir : String) (missing : List String) :
    createSteps templates dft (.mk command container stepDir children) containerName dir missing =
      createSteps templates dft (.mk command "" "" children)
        (if container ≠ "" then container else containerName)
        (if container = "" ∧ stepDir ≠ "" then stepDir else dir)
        missing := by
  simp only [createSteps]
  by_cases hc : container = "" <;> by_cases hd : stepDir = "" <;> simp [hc, hd]

/-- Claim C7: `removeUnnecessaryVolumes` drops every volume mount and
`removeUnnecessaryEnvVars` drops exactly the environment entries whose
name starts with `GIT_`, `DOCKER_` or `XDG_`, keeping every other
entry in order; on the example environment `GIT_TOKEN`, `DOCKER_HOST`,
`XDG_CONFIG`, `PATH` with a volume mount, the output has no volume
mounts and only `PATH`. -/
theorem c7_sanitization (c : Container) :
    (removeUnnecessaryVolumes c).volumeMounts = [] ∧
    (removeUnnecessaryEnvVars c).env.Sublist c.env ∧
    (∀ e, e ∈ (removeUnnecessaryEnvVars c).env ↔
      (e ∈ c.env ∧ goHasPrefix e.name "GIT_" = false ∧
        goHasPrefix e.name "DOCKER_" = false ∧ goHasPrefix e.name "XDG_" = false)) ∧
    removeUnnecessaryEnvVars (removeUnnecessaryVolumes
        ⟨"jnlp", "img", [], [], "", [⟨"GIT_TOKEN", "t"⟩, ⟨"DOCKER_HOST", "h"⟩,
          ⟨"XDG_CONFIG", "x"⟩, ⟨"PATH", "/bin"⟩], [⟨"workspace-volume", "/home"⟩]⟩) =
      ⟨"jnlp", "img", [], [], "", [⟨"PATH", "/bin"⟩], []⟩ := by
  refine ⟨rfl, ?_, ?_, by decide⟩
  · exact List.filter_sublist c.env
  · intro e
    simp [removeUnnecessaryEnvVars, List.mem_filter]

/-- Claim C9: compilation is deterministic; for a fixed pipeline
configuration, pod-template mapping, default container name, pack name
and kind, two runs of `generateTask` produce identical results.  The
embedding is deterministic by construction, mirroring that the source
consults no map-iteration order or other nondeterminism when building
the task. -/
theorem c9_deterministic (templates : List (String × Pod)) (dft name : String)
    (pipelineConfig : PipelineConfig) (kind : String) :
    generateTask templates dft name pipelineConfig kind =
      generateTask templates dft name pipelineConfig kind := rfl

/-- Claim C10: when the effective container name and the default
container name are both absent from the pod-template mapping, the
fallback result of `createSteps` is dereferenced without a nil check,
so flattening hits the nil-pointer dereference (modelled as
`nilPodTemplate`) rather than returning the no-containers
configuration error; the missing name is still recorded first. -/
theorem c10_nil_pod_template_deref (templates : List (String × Pod))
    (dft command container stepDir : String) (children : List PipelineStep)
    (containerName dir : String) (missing : List String) (effName : String)
    (hcmd : command ≠ "")
    (heff : effName = (if (if container ≠ "" then container else containerName) = "" then dft
      else if container ≠ "" then container else containerName))
    (habsent : lookupPod templates effName = none)
    (hdefault : lookupPod templates dft = none) :
    createSteps templates dft (.mk command container stepDir children) containerName dir missing =
      (.error (.nilPodTemplate effName), insertMissing missing effName) := by
  simp only [createSteps]
  rw [if_pos hcmd, ← heff, habsent]
  simp [hdefault]

theorem effDir_eq (container stepDir dir : String) :
    (if container ≠ "" then dir else if stepDir ≠ "" then stepDir else dir) =
      (if container = "" ∧ stepDir ≠ "" then stepDir else dir) := by
  by_cases hc : container = "" <;> by_cases hd : stepDir = "" <;> simp [hc, hd]

/-- Claim C8: `generateTask` selects the lifecycle set matching each
recognized kind and hands it to `generatePipeline` without a selection
error, and fails on any other kind string with an error whose message
lists the valid kind names. -/
theorem c8_kind_selection (templates : List (String × Pod)) (dft : String) :
    (∀ name cfg, generateTask templates dft name cfg PipelineKindRelease =
      generatePipeline templates dft name cfg cfg.pipelines.release PipelineKindRelease) ∧
    (∀ name cfg, generateTask templates dft name cfg PipelineKindPullRequest =
      generatePipeline templates dft name cfg cfg.pipelines.pullRequest PipelineKindPullRequest) ∧
    (∀ name cfg, generateTask templates dft name cfg PipelineKindFeature =
      generatePipeline templates dft name cfg cfg.pipelines.feature PipelineKindFeature) ∧
    (∀ name cfg kind, kind ∉ PipelineKinds →
      generateTask templates dft name cfg kind = (.error (.unknownKind kind), []) ∧
      ∀ k ∈ PipelineKinds, k.data <:+: (JxError.message (.unknownKind kind)).data) := by
  refine ⟨fun name cfg => rfl, fun name cfg => rfl, fun name cfg => rfl, ?_⟩
  intro name cfg kind hk
  simp only [PipelineKinds, List.mem_cons, List.not_mem_nil, or_false, not_or] at hk
  obtain ⟨h1, h2, h3⟩ := hk
  refine ⟨by simp [generateTask, h1, h2, h3], ?_⟩
  intro k hkmem
  have hX : k.data <:+:
      (". Supported values are ").data ++ (String.intercalate ", " PipelineKinds).data := by
    fin_cases hkmem <;> decide
  have hmsg : (JxError.message (.unknownKind kind)).data =
      ("Unknown pipeline kind ").data ++ (kind.data ++
        ((". Supported values are ").data ++ (String.intercalate ", " PipelineKinds).data)) := by
    simp [JxError.message, String.data_append, List.append_assoc]
  rw [hmsg]
  exact hX.trans (((List.suffix_append _ _).trans (List.suffix_append _ _)).isInfix)

/-- A pipeline configuration whose lifecycle sets are all nil, used to
exhibit the nil-lifecycles behavior of `generatePipeline`. -/
def cfgNoLifecycles : PipelineConfig :=
  { agent := ⟨"maven"⟩, pipelines := { pullRequest := none, release := none, feature := none } }

/-- Claim C2 as stated is false: with a recognized kind whose
lifecycle set is nil, `generatePipeline` returns immediately with no
error and emits no task at all, so no empty named TaskDefinition is
produced; the result carries no task value, in particular not the
named empty task the claim describes. -/
theorem c2_counterexample :
    generateTask [] "maven" "go" cfgNoLifecycles "release" = (.ok none, []) ∧
    (Except.ok (none : Option Task) : Except JxError (Option Task)) ≠
      Except.ok (some { name := "jx-task-go-release", steps := [] }) := by decide

/-- Claim C2 amended: for every recognized pipeline kind whose
lifecycle set is nil, compilation returns no error and emits no
TaskDefinition at all: no task name is generated and no empty task is
produced. -/
theorem c2_nil_lifecycles_no_task (templates : List (String × Pod)) (dft : String)
    (name : String) (cfg : PipelineConfig) (kind : String)
    (h : (kind = PipelineKindRelease ∧ cfg.pipelines.release = none) ∨
      (kind = PipelineKindPullRequest ∧ cfg.pipelines.pullRequest = none) ∨
      (kind = PipelineKindFeature ∧ cfg.pipelines.feature = none)) :
    generateTask templates dft name cfg kind = (.ok none, []) := by
  rcases h with ⟨rfl, h⟩ | ⟨rfl, h⟩ | ⟨rfl, h⟩ <;>
    simp [generateTask, generatePipeline, h, PipelineKindRelease, PipelineKindPullRequest,
      PipelineKindFeature]

/-- Witness for the amended claim C2 at a concrete configuration. -/
theorem c2_nil_lifecycles_no_task_witness :
    generateTask [] "maven" "go" cfgNoLifecycles "pull-request" = (.ok none, []) :=
  c2_nil_lifecycles_no_task [] "maven" "go" cfgNoLifecycles "pull-request"
    (Or.inr (Or.inl ⟨rfl, rfl⟩))

/-- Claim C3: a step whose resolved pod template (after any fallback)
has an empty container list makes `createSteps` return the
no-containers error naming the requested effective container name;
the error propagates through the sibling loop, the stage loop and
`generatePipeline`, whose error result carries no task, so no partial
TaskDefinition is emitted. -/
theorem c3_empty_containers_aborts (templates : List (String × Pod)) (dft : String) :
    (∀ command container stepDir children containerName dir missing effName pod,
      command ≠ "" →
      effName = (if (if container ≠ "" then container else containerName) = "" then dft
        else if container ≠ "" then container else containerName) →
      (if (lookupPod templates effName).isNone then lookupPod templates dft
        else lookupPod templates effName) = some pod →
      pod.containers = [] →
      (createSteps templates dft (.mk command container stepDir children)
        containerName dir missing).1 = .error (.noContainers effName)) ∧
    (∀ s rest containerName dir missing acc e m1,
      createSteps templates dft s containerName dir missing = (.error e, m1) →
      createStepsList templates dft (s :: rest) containerName dir missing acc = (.error e, m1)) ∧
    (∀ l rest containerName dir missing acc e m1,
      createStepsList templates dft l.steps containerName dir missing acc = (.error e, m1) →
      stagesLoop templates dft (some l :: rest) containerName dir missing acc = (.error e, m1)) ∧
    (∀ name cfg ls kind e m1,
      stagesLoop templates dft ls.All cfg.agent.container "/workspace" [] [] = (.error e, m1) →
      generatePipeline templates dft name cfg (some ls) kind = (.error e, m1)) := by
  refine ⟨?_, ?_, ?_, ?_⟩
  · intro command container stepDir children containerName dir missing effName pod
      hcmd heff hpod hcont
    subst heff
    simp only [createSteps]
    rw [if_pos hcmd, hpod]
    simp [hcont]
  · intro s rest containerName dir missing acc e m1 h
    simp [createStepsList, h]
  · intro l rest containerName dir missing acc e m1 h
    simp [stagesLoop, h]
  · intro name cfg ls kind e m1 h
    simp [generatePipeline, h]

/-- Witness for claim C3 at a concrete input: the resolved template
exists but has no containers, so flattening fails with the
no-containers error. -/
theorem c3_empty_containers_aborts_witness :
    (createSteps [("maven", Pod.mk [])] "maven" (.mk "build" "" "" []) "" "/workspace" []).1 =
      .error (.noContainers "maven") :=
  (c3_empty_containers_aborts [("maven", Pod.mk [])] "maven").1 "build" "" "" [] "" "/workspace"
    [] "maven" (Pod.mk []) (by decide) (by decide) (by decide) rfl

/-- The pod-template mapping used for the concrete dir-inheritance
counterexample. -/
def tplC6 : List (String × Pod) :=
  [("maven", ⟨[⟨"maven", "old-image", [], [], "", [], []⟩]⟩)]

/-- Claim C6 as stated is false: an executable step with an empty
declared dir does not always use the inherited value verbatim.  Here a
non-executable parent overrides the dir to the unnormalized relative
value dot-slash-app; its executable child declares no dir, and the
working directory written for the child is the normalized
"/workspace/app", not the inherited "./app" verbatim. -/
theorem c6_counterexample :
    createSteps tplC6 "maven"
        (.mk "" "" "./app" [.mk "echo hi" "" "" []]) "maven" "/workspace" [] =
      (.ok [⟨"maven", "jenkinsxio/jx:latest", ["/bin/sh"], ["-c", "echo hi"],
        "/workspace/app", [], []⟩], []) ∧
    ("/workspace/app" : String) ≠ "./app" := by decide

/-- Claim C6 amended: the working directory written for an executable
step is `normalizeDir` of the effective dir (the inherited dir when
the step declares none or also sets a container, the declared dir
otherwise); `normalizeDir` replaces a leading dot-slash by the root
working path keeping the remainder, joins any other relative path
under the root working path, and returns an absolute path unchanged,
so it is idempotent on normalized absolute paths; the inherited value
is therefore used verbatim only when it is already absolute. -/
theorem c6_workdir_normalization (templates : List (String × Pod)) (dft : String) :
    (∀ command container stepDir containerName dir missing l m1,
      command ≠ "" →
      createSteps templates dft (.mk command container stepDir []) containerName dir missing =
        (.ok l, m1) →
      l.map Container.workingDir =
        [normalizeDir (if container = "" ∧ stepDir ≠ "" then stepDir else dir)]) ∧
    (∀ x, goHasPrefix x "./" = true → normalizeDir x = "/workspace" ++ ⟨x.data.drop 1⟩) ∧
    (∀ x, goHasPrefix x "./" = false → goIsAbs x = false →
      normalizeDir x = goJoin "/workspace" x) ∧
    (∀ x, goIsAbs x = true → normalizeDir x = x) := by
  refine ⟨?_, normalizeDir_dotSlash, normalizeDir_rel, normalizeDir_abs⟩
  intro command container stepDir containerName dir missing l m1 hcmd h
  rw [← effDir_eq container stepDir dir]
  simp only [createSteps] at h
  rw [if_pos hcmd] at h
  split at h
  · simp at h
  · split at h
    · simp at h
    · simp only [createStepsList] at h
      rw [Prod.mk.injEq] at h
      obtain ⟨h1, h2⟩ := h
      rw [Except.ok.injEq] at h1
      subst h1
      simp

theorem sizeOf_lt_of_mem_steps (s : PipelineStep) (command container stepDir : String)
    (children : List PipelineStep) (h : s ∈ children) :
    sizeOf s < sizeOf (PipelineStep.mk command container stepDir children) := by
  have h1 := List.sizeOf_lt_of_mem h
  have h2 := PipelineStep.mk.sizeOf_spec command container stepDir children
  rw [h2]
  omega

theorem insertMissing_mem (missing : List String) (name : String) :
    name ∈ insertMissing missing name := by
  unfold insertMissing
  split
  · assumption
  · simp

theorem insertMissing_of_mem (missing : List String) (name : String)
    (h : name ∈ missing) : insertMissing missing name = missing := by
  simp [insertMissing, h]

theorem insertMissing_nodup (missing : List String) (name : String)
    (h : missing.Nodup) : (insertMissing missing name).Nodup := by
  unfold insertMissing
  split
  · exact h
  · simp_all [List.nodup_append]

theorem createStepsList_missing_nodup_aux (templates : List (String × Pod)) (dft : String)
    (ss : List PipelineStep)
    (IH : ∀ s ∈ ss, ∀ cn dir m, m.Nodup → ((createSteps templates dft s cn dir m).2).Nodup) :
    ∀ cn dir m acc, m.Nodup → ((createStepsList templates dft ss cn dir m acc).2).Nodup := by
  induction ss with
  | nil =>
    intro cn dir m acc h
    simpa [createStepsList] using h
  | cons s rest ih =>
    intro cn dir m acc h
    simp only [createStepsList]
    rcases hres : createSteps templates dft s cn dir m with ⟨res, m2⟩
    have hm2 : m2.Nodup := by
      have hx := IH s (by simp) cn dir m h
      rw [hres] at hx
      exact hx
    cases res with
    | error e => exact hm2
    | ok cs => exact ih (fun s2 hs2 => IH s2 (by simp [hs2])) cn dir m2 (acc ++ cs) hm2

theorem insertMissing_ite_nodup (b : Prop) [Decidable b] (m : List String) (x : String)
    (h : m.Nodup) : (if b then insertMissing m x else m).Nodup := by
  split
  · exact insertMissing_nodup _ _ h
  · exact h

theorem createSteps_missing_nodup (templates : List (String × Pod)) (dft : String) :
    ∀ (n : Nat) (s : PipelineStep), sizeOf s < n →
      ∀ cn dir m, m.Nodup → ((createSteps templates dft s cn dir m).2).Nodup := by
  intro n
  induction n with
  | zero => intro s h; omega
  | succ n ih =>
    intro s hs
    rcases s with ⟨command, container, stepDir, children⟩
    have hch : ∀ s2 ∈ children, ∀ cn dir m, m.Nodup →
        ((createSteps templates dft s2 cn dir m).2).Nodup := by
      intro s2 hmem
      apply ih
      have hlt := sizeOf_lt_of_mem_steps s2 command container stepDir children hmem
      omega
    intro cn dir m h
    by_cases hcmd : command = ""
    · simp only [createSteps]
      rw [if_neg (by simp [hcmd])]
      exact createStepsList_missing_nodup_aux templates dft children hch _ _ m [] h
    · simp only [createSteps]
      rw [if_pos hcmd]
      split <;>
        first
          | exact insertMissing_ite_nodup _ _ _ h
          | (split <;>
              first
                | exact insertMissing_ite_nodup _ _ _ h
                | exact createStepsList_missing_nodup_aux templates dft children hch _ _ _ _
                    (insertMissing_ite_nodup _ _ _ h))

/-- Claim C4: an executable step whose effective container name is
absent from the pod-template mapping resolves without error to the
first container of the default-name template, records the absent name
in the missing set, and the missing set never holds a name twice, so a
name requested by several steps is recorded exactly once. -/
theorem c4_missing_template_fallback (templates : List (String × Pod)) (dft : String) :
    (∀ command container stepDir containerName dir missing effName dp c0 cs,
      command ≠ "" →
      effName = (if (if container ≠ "" then container else containerName) = "" then dft
        else if container ≠ "" then container else containerName) →
      lookupPod templates effName = none →
      lookupPod templates dft = some dp →
      dp.containers = c0 :: cs →
      createSteps templates dft (.mk command container stepDir []) containerName dir missing =
        (.ok [{ removeUnnecessaryEnvVars (removeUnnecessaryVolumes c0) with
            command := ["/bin/sh"], args := ["-c", command],
            workingDir := normalizeDir (if container = "" ∧ stepDir ≠ "" then stepDir else dir),
            image := "jenkinsxio/jx:latest" }],
          insertMissing missing effName)) ∧
    (∀ missing name, name ∈ insertMissing missing name) ∧
    (∀ missing name, name ∈ missing → insertMissing missing name = missing) ∧
    (∀ s containerName dir missing, missing.Nodup →
      ((createSteps templates dft s containerName dir missing).2).Nodup) ∧
    (∀ ss containerName dir missing acc, missing.Nodup →
      ((createStepsList templates dft ss containerName dir missing acc).2).Nodup) := by
  refine ⟨?_, insertMissing_mem, insertMissing_of_mem,
    fun s cn dir m h => createSteps_missing_nodup templates dft (sizeOf s + 1) s (by omega) cn dir m h,
    fun ss cn dir m acc h => createStepsList_missing_nodup_aux templates dft ss
      (fun s2 hs2 cn2 dir2 m2 h2 =>
        createSteps_missing_nodup templates dft (sizeOf s2 + 1) s2 (by omega) cn2 dir2 m2 h2)
      cn dir m acc h⟩
  intro command container stepDir containerName dir missing effName dp c0 cs
    hcmd heff habsent hdft hcont
  subst heff
  simp only [createSteps]
  rw [if_pos hcmd, habsent]
  simp [hdft, hcont, createStepsList]
  by_cases hc : container = "" <;> by_cases hd : stepDir = "" <;> simp [hc, hd]

/-- Witness for claim C4 at a concrete input: the name golang is
absent, the default template maven resolves, and golang is recorded. -/
theorem c4_missing_template_fallback_witness :
    createSteps [("maven", Pod.mk [⟨"mvn", "old-image", [], [], "", [], []⟩])] "maven"
        (.mk "make" "golang" "" []) "maven" "/workspace" [] =
      (.ok [{ removeUnnecessaryEnvVars (removeUnnecessaryVolumes
            ⟨"mvn", "old-image", [], [], "", [], []⟩) with
          command := ["/bin/sh"], args := ["-c", "make"],
          workingDir := normalizeDir (if ("golang" : String) = "" ∧ ("" : String) ≠ ""
            then "" else "/workspace"),
          image := "jenkinsxio/jx:latest" }],
        insertMissing [] "golang") :=
  (c4_missing_template_fallback [("maven", Pod.mk [⟨"mvn", "old-image", [], [], "", [], []⟩])]
      "maven").1 "make" "golang" "" "maven" "/workspace" [] "golang"
    (Pod.mk [⟨"mvn", "old-image", [], [], "", [], []⟩]) ⟨"mvn", "old-image", [], [], "", [], []⟩ []
    (by decide) (by decide) (by decide) (by decide) rfl

theorem createStepsList_args_aux (templates : List (String × Pod)) (dft : String)
    (ss : List PipelineStep)
    (IH : ∀ s ∈ ss, ∀ cn dir m l m1, createSteps templates dft s cn dir m = (.ok l, m1) →
      l.map Container.args = (preorderCommands s).map (fun c => ["-c", c])) :
    ∀ cn dir m acc l m1, createStepsList templates dft ss cn dir m acc = (.ok l, m1) →
      l.map Container.args =
        acc.map Container.args ++ (preorderCommandsList ss).map (fun c => ["-c", c]) := by
  induction ss with
  | nil =>
    intro cn dir m acc l m1 h
    simp only [createStepsList] at h
    rw [Prod.mk.injEq] at h
    obtain ⟨h1, h2⟩ := h
    rw [Except.ok.injEq] at h1
    subst h1
    simp [preorderCommandsList]
  | cons s rest ih =>
    intro cn dir m acc l m1 h
    simp only [createStepsList] at h
    rcases hres : createSteps templates dft s cn dir m with ⟨res, m2⟩
    rw [hres] at h
    cases res with
    | error e => simp at h
    | ok cs =>
      have hcs := IH s (by simp) cn dir m cs m2 hres
      have hrest := ih (fun s2 hs2 => IH s2 (by simp [hs2])) cn dir m2 (acc ++ cs) l m1 h
      simp [hrest, hcs, preorderCommandsList, List.append_assoc]

theorem createSteps_args (templates : List (String × Pod)) (dft : String) :
    ∀ (n : Nat) (s : PipelineStep), sizeOf s < n →
      ∀ cn dir m l m1, createSteps templates dft s cn dir m = (.ok l, m1) →
        l.map Container.args = (preorderCommands s).map (fun c => ["-c", c]) := by
  intro n
  induction n with
  | zero => intro s h; omega
  | succ n ih =>
    intro s hs
    rcases s with ⟨command, container, stepDir, children⟩
    have hch : ∀ s2 ∈ children, ∀ cn dir m l m1,
        createSteps templates dft s2 cn dir m = (.ok l, m1) →
        l.map Container.args = (preorderCommands s2).map (fun c => ["-c", c]) := by
      intro s2 hmem
      apply ih
      have hlt := sizeOf_lt_of_mem_steps s2 command container stepDir children hmem
      omega
    intro cn dir m l m1 h
    by_cases hcmd : command = ""
    · simp only [createSteps] at h
      rw [if_neg (by simp [hcmd])] at h
      have hx := createStepsList_args_aux templates dft children hch _ _ m [] l m1 h
      simpa [preorderCommands, hcmd] using hx
    · simp only [createSteps] at h
      rw [if_pos hcmd] at h
      split at h
      · simp at h
      · split at h
        · simp at h
        · have hx := createStepsList_args_aux templates dft children hch _ _ _ _ _ _ h
          simpa [preorderCommands, hcmd] using hx

theorem stagesLoop_args (templates : List (String × Pod)) (dft : String) :
    ∀ stages cn dir m acc l m1, stagesLoop templates dft stages cn dir m acc = (.ok l, m1) →
      l.map Container.args =
        acc.map Container.args ++ (stagesCommands stages).map (fun c => ["-c", c]) := by
  intro stages
  induction stages with
  | nil =>
    intro cn dir m acc l m1 h
    simp only [stagesLoop] at h
    rw [Prod.mk.injEq] at h
    obtain ⟨h1, h2⟩ := h
    rw [Except.ok.injEq] at h1
    subst h1
    simp [stagesCommands]
  | cons st rest ih =>
    cases st with
    | none =>
      intro cn dir m acc l m1 h
      simp only [stagesLoop] at h
      have hx := ih cn dir m acc l m1 h
      simpa [stagesCommands] using hx
    | some lc =>
      intro cn dir m acc l m1 h
      simp only [stagesLoop] at h
      rcases hres : createStepsList templates dft lc.steps cn dir m acc with ⟨res, m2⟩
      rw [hres] at h
      cases res with
      | error e => simp at h
      | ok steps1 =>
        have h1 := createStepsList_args_aux templates dft lc.steps
          (fun s2 hs2 cn2 dir2 mm ll mm1 hh =>
            createSteps_args templates dft (sizeOf s2 + 1) s2 (by omega) cn2 dir2 mm ll mm1 hh)
          cn dir m acc steps1 m2 hres
        have h2 := ih cn dir m2 steps1 l m1 h
        simp [h2, h1, stagesCommands, List.append_assoc]

/-- Claim C5: the compiled container-step list is the pre-order,
parent-before-children, left-to-right traversal of each step forest,
concatenated across the non-nil lifecycle stages in their declared
order; the container steps identify their source step by the shell
arguments holding the step command.  The concrete conjunct checks the
stages A holding a1, a2 and B holding b1 compile to exactly that
order. -/
theorem c5_preorder_flattening (templates : List (String × Pod)) (dft : String) :
    (∀ s cn dir m l m1, createSteps templates dft s cn dir m = (.ok l, m1) →
      l.map Container.args = (preorderCommands s).map (fun c => ["-c", c])) ∧
    (∀ stages cn dir m acc l m1, stagesLoop templates dft stages cn dir m acc = (.ok l, m1) →
      l.map Container.args =
        acc.map Container.args ++ (stagesCommands stages).map (fun c => ["-c", c])) ∧
    (∀ name cfg ls kind t m1,
      generatePipeline templates dft name cfg (some ls) kind = (.ok (some t), m1) →
      t.steps.map Container.args = (stagesCommands ls.All).map (fun c => ["-c", c])) ∧
    generatePipeline tplC6 "maven" "go" cfgNoLifecycles
        (some ⟨[some ⟨[.mk "a1" "" "" [], .mk "a2" "" "" []]⟩, some ⟨[.mk "b1" "" "" []]⟩]⟩)
        "release" =
      (.ok (some { name := "jx-task-go-release",
                   steps := [⟨"maven", "jenkinsxio/jx:latest", ["/bin/sh"], ["-c", "a1"],
                       "/workspace", [], []⟩,
                     ⟨"maven", "jenkinsxio/jx:latest", ["/bin/sh"], ["-c", "a2"],
                       "/workspace", [], []⟩,
                     ⟨"maven", "jenkinsxio/jx:latest", ["/bin/sh"], ["-c", "b1"],
                       "/workspace", [], []⟩] }), []) := by
  refine ⟨fun s cn dir m l m1 h =>
      createSteps_args templates dft (sizeOf s + 1) s (by omega) cn dir m l m1 h,
    stagesLoop_args templates dft, ?_, by decide⟩
  intro name cfg ls kind t m1 h
  simp only [generatePipeline] at h
  rcases hres : stagesLoop templates dft ls.All cfg.agent.container "/workspace" [] []
    with ⟨res, m2⟩
  rw [hres] at h
  cases res with
  | error e => simp at h
  | ok steps1 =>
    rw [Prod.mk.injEq] at h
    obtain ⟨h1, h2⟩ := h
    rw [Except.ok.injEq, Option.some.injEq] at h1
    have hsteps : t.steps = steps1 := by rw [← h1]
    rw [hsteps]
    have hx := stagesLoop_args templates dft ls.All cfg.agent.container "/workspace" [] []
      steps1 m2 hres
    simpa using hx

/-- Witness for claim C5 at a concrete input: flattening one leaf step
emits one container whose shell arguments carry its command. -/
theorem c5_preorder_flattening_witness :
    ([⟨"maven", "jenkinsxio/jx:latest", ["/bin/sh"], ["-c", "a1"], "/workspace", [], []⟩] :
        List Container).map Container.args =
      (preorderCommands (.mk "a1" "" "" [])).map (fun c => ["-c", c]) :=
  (c5_preorder_flattening tplC6 "maven").1 (.mk "a1" "" "" []) "maven" "/workspace" []
    [⟨"maven", "jenkinsxio/jx:latest", ["/bin/sh"], ["-c", "a1"], "/workspace", [], []⟩] []
    (by decide)

/-- Witness for the amended claim C6 at a concrete input: the declared
relative dir baz is normalized to /workspace/baz. -/
theorem c6_workdir_normalization_witness :
    ([⟨"maven", "jenkinsxio/jx:latest", ["/bin/sh"], ["-c", "echo"], "/workspace/baz", [], []⟩] :
        List Container).map Container.workingDir =
      [normalizeDir (if ("" : String) = "" ∧ ("baz" : String) ≠ "" then "baz" else "/workspace")] :=
  (c6_workdir_normalization tplC6 "maven").1 "echo" "" "baz" "maven" "/workspace" []
    [⟨"maven", "jenkinsxio/jx:latest", ["/bin/sh"], ["-c", "echo"], "/workspace/baz", [], []⟩] []
    (by decide) (by decide)

/-- Witness for claim C7 at a concrete container. -/
theorem c7_sanitization_witness :
    (removeUnnecessaryVolumes
        ⟨"c", "i", [], [], "", [⟨"GIT_A", "1"⟩], [⟨"v", "/m"⟩]⟩).volumeMounts = [] :=
  (c7_sanitization ⟨"c", "i", [], [], "", [⟨"GIT_A", "1"⟩], [⟨"v", "/m"⟩]⟩).1

/-- Witness for claim C8 at a concrete unrecognized kind. -/
theorem c8_kind_selection_witness :
    generateTask [] "maven" "go" cfgNoLifecycles "unknown" =
      (.error (.unknownKind "unknown"), []) :=
  ((c8_kind_selection [] "maven").2.2.2 "go" cfgNoLifecycles "unknown" (by decide)).1

/-- Witness for claim C10 at a concrete input: both the effective and
the default template are absent, and flattening hits the modelled nil
dereference. -/
theorem c10_nil_pod_template_deref_witness :
    createSteps [] "maven" (.mk "build" "" "" []) "" "/workspace" [] =
      (.error (.nilPodTemplate "maven"), insertMissing [] "maven") :=
  c10_nil_pod_template_deref [] "maven" "build" "" "" [] "" "/workspace" [] "maven"
    (by decide) (by decide) (by decide) (by decide)

end JxStepCreateTask
